import Mathlib

/-!
Verification development for the `vertex` repository.

Shallow embedding of `vertex_on_demand.py` (model-availability discovery
sweep) and `gemini3pro-deepthink.py` (Gemini client).  The network is made
explicit: a probe receives the `HttpResult` that `requests.post` would have
produced (a status/body response, a timeout, or a transport exception), and
the external `gcloud` catalog command is made explicit as a `GcloudResult`.
URL and payload construction only shape the outgoing request and never
influence result classification, so they are not embedded.
-/

namespace Vertex

/-- Outcome of the single HTTP POST a probe issues: a response with status
code and body, a `requests.exceptions.Timeout`, or any other transport
exception.  A probe performs exactly one attempt, with no retry. -/
inductive HttpResult where
  | response (status : Nat) (body : String)
  | timeout
  | exception
deriving DecidableEq

/-- The dict returned by `check_model_availability` on a non-absent outcome
(`vertex_on_demand.py` lines 156-180).  Statuses are the literal strings
the Python code stores. -/
structure ProbeResult where
  publisher : String
  model_id : String
  status : String
  endpoint : String
  requires_eula : Bool
deriving DecidableEq

/-- Does `l` start with `p`?  (Char-list version of a string test.) -/
def charListHasInit : List Char → List Char → Bool
  | [], _ => true
  | _ :: _, [] => false
  | p :: ps, c :: cs => p == c && charListHasInit ps cs

/-- Does `pat` occur as a contiguous run inside `l`?  (Python `pat in s`.) -/
def charListContains (pat : List Char) : List Char → Bool
  | [] => pat.isEmpty
  | c :: rest => charListHasInit pat (c :: rest) || charListContains pat rest

/-- Python substring test `pat in s`. -/
def strContains (s pat : String) : Bool :=
  charListContains pat.toList s.toList

/-- Python `s.lower()`, character by character (`String.toLower` unfolded to
its list form). -/
def lower (s : String) : String :=
  ⟨s.data.map Char.toLower⟩

/-- `error_text = response.text.lower()` followed by the keyword scan of
line 165: `"agreement" in error_text or "eula" in error_text or "terms" in
error_text`. -/
def eulaKeyword (body : String) : Bool :=
  strContains (lower body) "agreement" || strContains (lower body) "eula" ||
    strContains (lower body) "terms"

/-- The `endpoint` field: `region if region else "global"` (Python truthiness:
`None` and the empty string both select `"global"`). -/
def endpointOf (region : Option String) : String :=
  match region with
  | some r => if r = "" then "global" else r
  | none => "global"

/-- `check_model_availability` (lines 115-190), with the HTTP interaction
made explicit as `net`.  The `project` and `access_token` arguments only
parameterize the URL and auth header and never influence classification, so
they are not embedded. -/
def check_model_availability (publisher model_id : String) (region : Option String)
    (net : HttpResult) : Option ProbeResult :=
  match net with
  | .response status body =>
    if status = 200 then
      some ⟨publisher, model_id, "available", endpointOf region,
        !(["google"].contains publisher)⟩
    else if status = 403 then
      if eulaKeyword body then
        some ⟨publisher, model_id, "needs_eula", endpointOf region, true⟩
      else
        some ⟨publisher, model_id, "needs_permission", endpointOf region,
          !(["google"].contains publisher)⟩
    else if status = 404 then
      none
    else
      none
  | .timeout => none
  | .exception => none

/-- The dict returned by `check_model_in_regions` (lines 381-387). -/
structure RegionReport where
  publisher : String
  model_id : String
  status : String
  regions : List String
  requires_eula : Bool
deriving DecidableEq

/-- The three accumulator lists of `check_model_in_regions` (lines 354-366):
each region is probed and appended to the bucket matching its status.  The
recursion preserves the input-sequence order of `regions`, exactly like the
Python `for` loop's appends. -/
def regionBuckets (publisher model_id : String) (net : String → HttpResult) :
    List String → List String × List String × List String
  | [] => ([], [], [])
  | r :: rest =>
    let acc := regionBuckets publisher model_id net rest
    match check_model_availability publisher model_id (some r) (net r) with
    | some res =>
      if res.status = "available" then (r :: acc.1, acc.2.1, acc.2.2)
      else if res.status = "needs_eula" then (acc.1, r :: acc.2.1, acc.2.2)
      else if res.status = "needs_permission" then (acc.1, acc.2.1, r :: acc.2.2)
      else acc
    | none => acc

/-- `check_model_in_regions` (lines 343-389): probe every region, bucket the
outcomes, and reduce under the precedence available > needs_eula >
needs_permission; `None` when every bucket is empty. -/
def check_model_in_regions (publisher model_id : String) (regions : List String)
    (net : String → HttpResult) : Option RegionReport :=
  let acc := regionBuckets publisher model_id net regions
  if acc.1 ≠ [] ∨ acc.2.1 ≠ [] ∨ acc.2.2 ≠ [] then
    if acc.1 ≠ [] then
      some ⟨publisher, model_id, "available", acc.1, !(["google"].contains publisher)⟩
    else if acc.2.1 ≠ [] then
      some ⟨publisher, model_id, "needs_eula", acc.2.1, !(["google"].contains publisher)⟩
    else
      some ⟨publisher, model_id, "needs_permission", acc.2.2,
        !(["google"].contains publisher)⟩
  else
    none

/-- `PUBLISHERS` (line 37). -/
def PUBLISHERS : List String := ["google", "anthropic", "meta", "mistral-ai", "ai21"]

/-- `LLM_PATTERNS` (lines 40-48); each pattern is a plain lowercase word, so
the `re.IGNORECASE` search is a substring test on the lowercased id. -/
def LLM_PATTERNS : List String :=
  ["gemini", "claude", "llama", "mistral", "mixtral", "codestral", "jamba"]

/-- `llm_regex.search(model_id)` with `re.IGNORECASE` (lines 216, 234). -/
def llmMatches (model_id : String) : Bool :=
  LLM_PATTERNS.any (fun p => strContains (lower model_id) p)

/-- `re.match(r"publishers/([^/]+)/models/(.+)", line)` (line 223): the first
segment must be the literal `publishers`, the second is the (nonempty)
publisher, the third the literal `models`, and the rest (nonempty, slashes
allowed) is the model id. -/
def parseModelLine (line : String) : Option (String × String) :=
  match line.splitOn "/" with
  | "publishers" :: publisher :: "models" :: tail =>
    let model_id := String.intercalate "/" tail
    if publisher ≠ "" ∧ model_id ≠ "" then some (publisher, model_id) else none
  | _ => none

/-- Outcome of the external `gcloud ... model-garden models list` command
(lines 199-209): success with its stdout, a nonzero exit status, a
`subprocess.TimeoutExpired` (60 s budget), or `FileNotFoundError`. -/
inductive GcloudResult where
  | ok (stdout : String)
  | failed
  | timedOut
  | notFound
deriving DecidableEq

/-- `fetch_model_garden_models` (lines 193-246) with the subprocess made
explicit: every failure path returns the empty list; on success each line of
the stripped stdout is parsed, kept only when the publisher is allow-listed
and the id matches an LLM pattern. -/
def fetch_model_garden_models (g : GcloudResult) : List (String × String) :=
  match g with
  | .ok stdout =>
    (stdout.trim.splitOn "\n").filterMap (fun line =>
      if line = "" then none
      else
        match parseModelLine line with
        | some pm =>
          if PUBLISHERS.contains pm.1 ∧ llmMatches pm.2 then some pm else none
        | none => none)
  | .failed => []
  | .timedOut => []
  | .notFound => []

/-- `re.sub(r"@.*$", "", model_id)` (line 263) for newline-free model ids:
everything from the first `@` on is removed. -/
def stripVersion (model_id : String) : String :=
  ((model_id.splitOn "@").headD model_id)

/-- `mistral_specific_models` (lines 271-278). -/
def mistral_specific_models : List String :=
  ["mistral-medium-3", "mistral-small-2503", "mistral-ocr", "mistral-large-2407",
   "codestral-2", "codestral-2405"]

/-- The `expanded` set of `get_model_patterns` (lines 260-282): the fetched
pairs, plus each pair with the version suffix stripped when that changes the
id, plus the fixed Mistral ids.  CPython materializes this as a `set`, whose
iteration order is unspecified; the embedding dedups preserving first
insertion.  (The extra `expanded.add((publisher, model_id))` for anthropic
pairs is a no-op on a set and is dropped.) -/
def dynamicExpand (models : List (String × String)) : List (String × String) :=
  (models ++
    models.filterMap (fun pm =>
      if stripVersion pm.2 ≠ pm.2 then some (pm.1, stripVersion pm.2) else none) ++
    mistral_specific_models.map (fun m => ("mistral-ai", m))).dedup

/-- The static fallback table of `get_model_patterns` (lines 284-340). -/
def static_patterns : List (String × String) :=
  [("google", "gemini-3-pro-preview"), ("google", "gemini-3-flash-preview"),
   ("google", "gemini-2.5-pro"), ("google", "gemini-2.5-flash"),
   ("google", "gemini-2.5-flash-lite"), ("google", "gemini-2.0-flash"),
   ("google", "gemini-2.0-flash-001"), ("google", "gemini-2.0-flash-lite"),
   ("anthropic", "claude-opus-4-5"), ("anthropic", "claude-sonnet-4-5"),
   ("anthropic", "claude-haiku-4-5"), ("anthropic", "claude-opus-4"),
   ("anthropic", "claude-sonnet-4"), ("anthropic", "claude-3-7-sonnet"),
   ("anthropic", "claude-3-5-sonnet"), ("anthropic", "claude-3-5-haiku"),
   ("anthropic", "claude-3-haiku"),
   ("meta", "llama-4-maverick-17b-128e-instruct-maas"),
   ("meta", "llama-3.3-70b-instruct-maas"),
   ("meta", "llama-3.2-90b-vision-instruct-maas"),
   ("meta", "llama-3.1-405b-instruct-maas"),
   ("mistral-ai", "mistral-medium-3"), ("mistral-ai", "mistral-small-2503"),
   ("mistral-ai", "mistral-ocr"), ("mistral-ai", "mistral-large-2407"),
   ("mistral-ai", "codestral-2"), ("mistral-ai", "codestral-2405"),
   ("ai21", "jamba-large-1.6")]

/-- `get_model_patterns` (lines 249-340): with dynamic discovery, a nonempty
fetch is expanded and returned; an empty fetch (any failure of the external
command, or nothing usable) falls through to the static table, which is also
what an explicit `use_dynamic=False` selects. -/
def get_model_patterns (g : GcloudResult) (use_dynamic : Bool) : List (String × String) :=
  if use_dynamic then
    let models := fetch_model_garden_models g
    if models ≠ [] then dynamicExpand models else static_patterns
  else static_patterns

/-- Strict code-point lexicographic comparison of char lists: Python's `<`
on `str` values. -/
def lexLtB : List Char → List Char → Bool
  | _, [] => false
  | [], _ :: _ => true
  | a :: as, b :: bs =>
    decide (a.toNat < b.toNat) || (decide (a = b) && lexLtB as bs)

/-- Python `s < t` on strings: code-point lexicographic. -/
def strLtB (s t : String) : Bool :=
  lexLtB s.data t.data

/-- Python `s <= t` on strings. -/
def strLeB (s t : String) : Bool :=
  strLtB s t || decide (s = t)

/-- The Python sort key comparison `(x["publisher"], x["model_id"])`:
lexicographic on the pair, components compared as Python compares `str`. -/
def pairLeB (x y : String × String) : Bool :=
  strLtB x.1 y.1 || (decide (x.1 = y.1) && strLeB x.2 y.2)

/-- Propositional form of `pairLeB`, for sorting. -/
def pairLe (x y : String × String) : Prop :=
  pairLeB x y = true

instance : DecidableRel pairLe := fun x y => by
  unfold pairLe; infer_instance

/-- Sort comparison on probe results, by `(publisher, model_id)`. -/
def probeLe (a b : ProbeResult) : Prop :=
  pairLe (a.publisher, a.model_id) (b.publisher, b.model_id)

instance : DecidableRel probeLe := fun a b => by
  unfold probeLe; infer_instance

/-- Sort comparison on region reports, by `(publisher, model_id)`. -/
def regionLe (a b : RegionReport) : Prop :=
  pairLe (a.publisher, a.model_id) (b.publisher, b.model_id)

instance : DecidableRel regionLe := fun a b => by
  unfold regionLe; infer_instance

/-- Global-endpoint sweep of `discover_models` (lines 460-487): one
`check_model_availability` unit per candidate pair, `None` results dropped,
then `all_models.sort(key=lambda x: (x["publisher"], x["model_id"]))`.
`candidates` is the sequence in which `as_completed` yields the units — an
arbitrary permutation of the submitted pairs; `net` fixes each pair's HTTP
outcome.  Python's stable sort and `insertionSort` agree on every list whose
sort keys are pairwise distinct, which lines 438-479 guarantee (one result
per submitted pair). -/
def discover_global (candidates : List (String × String))
    (net : String × String → HttpResult) : List ProbeResult :=
  List.insertionSort probeLe
    (candidates.filterMap (fun c => check_model_availability c.1 c.2 none (net c)))

/-- Regional sweep of `discover_models` (lines 440-459, 487): one
`check_model_in_regions` unit per candidate pair across the continent's
region list, `None` results dropped, then the same sort. -/
def discover_regional (candidates : List (String × String)) (regions : List String)
    (net : String × String → String → HttpResult) : List RegionReport :=
  List.insertionSort regionLe
    (candidates.filterMap (fun c => check_model_in_regions c.1 c.2 regions (net c)))

/-- Probe outcomes that the `except` clauses of lines 187-190 absorb. -/
def isFailure : HttpResult → Bool
  | .timeout => true
  | .exception => true
  | .response _ _ => false

/-- Status of the probe of one region, as `check_model_in_regions` sees it. -/
def probeStatus (publisher model_id : String) (net : String → HttpResult)
    (r : String) : Option String :=
  (check_model_availability publisher model_id (some r) (net r)).map ProbeResult.status

/-- The regions whose probe classified as `available`, in input order. -/
def availableIn (publisher model_id : String) (net : String → HttpResult)
    (regions : List String) : List String :=
  regions.filter (fun r => probeStatus publisher model_id net r == some "available")

/-- The regions whose probe classified as `needs_eula`, in input order. -/
def eulaIn (publisher model_id : String) (net : String → HttpResult)
    (regions : List String) : List String :=
  regions.filter (fun r => probeStatus publisher model_id net r == some "needs_eula")

/-- The regions whose probe classified as `needs_permission`, in input order. -/
def permIn (publisher model_id : String) (net : String → HttpResult)
    (regions : List String) : List String :=
  regions.filter (fun r => probeStatus publisher model_id net r == some "needs_permission")

/-- The `thinkingConfig` object of `gemini3pro-deepthink.py` (lines 94-105):
optional fields model dict keys that may be absent. -/
structure ThinkingConfig where
  includeThoughts : Bool
  thinkingBudget : Option Int
  thinkingLevel : Option String
deriving DecidableEq

/-- Lines 94-105: start from `includeThoughts`, then add `thinkingBudget`
when the budget argument is positive and `thinkingLevel` otherwise. -/
def build_thinking_config (no_thoughts : Bool) (thinking_level : String)
    (thinking_budget : Int) : ThinkingConfig :=
  if thinking_budget > 0 then
    { includeThoughts := !no_thoughts, thinkingBudget := some thinking_budget,
      thinkingLevel := none }
  else
    { includeThoughts := !no_thoughts, thinkingBudget := none,
      thinkingLevel := some thinking_level }

/-- `key = arg_key or os.environ.get("GEMINI_API_KEY")` (line 43): Python
`or` falls through on a falsy left operand, i.e. on `None` or the empty
string.  `none` models an absent argument or environment variable. -/
def effective_api_key (arg_key env_key : Option String) : Option String :=
  match arg_key with
  | some s => if s = "" then env_key else some s
  | none => env_key

/-- `get_api_key` (lines 41-48): `sys.exit(1)` (modelled as `.error 1`) when
the obtained key is absent, empty, or the literal `"1234"`; otherwise the key
is returned unchanged. -/
def get_api_key (arg_key env_key : Option String) : Except Nat String :=
  match effective_api_key arg_key env_key with
  | none => .error 1
  | some k => if k = "" ∨ k = "1234" then .error 1 else .ok k

/-! ### Order lemmas for the sort comparison -/

lemma char_toNat_inj {a b : Char} (h : a.toNat = b.toNat) : a = b :=
  Char.ext (UInt32.ext h)

lemma lexLtB_irrefl : ∀ l : List Char, lexLtB l l = false
  | [] => rfl
  | a :: as => by
    simp [lexLtB, lexLtB_irrefl as]

lemma lexLtB_trans : ∀ {a b c : List Char},
    lexLtB a b = true → lexLtB b c = true → lexLtB a c = true
  | _, [], _, h₁, _ => by simp [lexLtB] at h₁
  | _, _ :: _, [], _, h₂ => by simp [lexLtB] at h₂
  | [], _ :: _, _ :: _, _, _ => by simp [lexLtB]
  | a :: as, b :: bs, c :: cs, h₁, h₂ => by
    simp only [lexLtB, Bool.or_eq_true, Bool.and_eq_true, decide_eq_true_eq] at h₁ h₂ ⊢
    rcases h₁ with h₁ | ⟨rfl, h₁⟩
    · rcases h₂ with h₂ | ⟨rfl, _⟩
      · exact Or.inl (Nat.lt_trans h₁ h₂)
      · exact Or.inl h₁
    · rcases h₂ with h₂ | ⟨rfl, h₂⟩
      · exact Or.inl h₂
      · exact Or.inr ⟨rfl, lexLtB_trans h₁ h₂⟩

lemma lexLtB_asymm {a b : List Char} (h₁ : lexLtB a b = true)
    (h₂ : lexLtB b a = true) : False := by
  have := lexLtB_trans h₁ h₂
  rw [lexLtB_irrefl] at this
  exact Bool.false_ne_true this

lemma lexLtB_cases : ∀ a b : List Char,
    lexLtB a b = true ∨ a = b ∨ lexLtB b a = true
  | [], [] => Or.inr (Or.inl rfl)
  | [], _ :: _ => Or.inl (by simp [lexLtB])
  | _ :: _, [] => Or.inr (Or.inr (by simp [lexLtB]))
  | a :: as, b :: bs => by
    rcases Nat.lt_trichotomy a.toNat b.toNat with h | h | h
    · exact Or.inl (by simp [lexLtB, h])
    · have hab : a = b := char_toNat_inj h
      subst hab
      rcases lexLtB_cases as bs with h' | h' | h'
      · exact Or.inl (by simp [lexLtB, h'])
      · exact Or.inr (Or.inl (by rw [h']))
      · exact Or.inr (Or.inr (by simp [lexLtB, h']))
    · exact Or.inr (Or.inr (by simp [lexLtB, h]))

lemma strLtB_trans {s t u : String} (h₁ : strLtB s t = true)
    (h₂ : strLtB t u = true) : strLtB s u = true :=
  lexLtB_trans h₁ h₂

lemma strLtB_asymm {s t : String} (h₁ : strLtB s t = true)
    (h₂ : strLtB t s = true) : False :=
  lexLtB_asymm h₁ h₂

lemma strLtB_cases (s t : String) :
    strLtB s t = true ∨ s = t ∨ strLtB t s = true := by
  rcases lexLtB_cases s.data t.data with h | h | h
  · exact Or.inl h
  · refine Or.inr (Or.inl ?_)
    cases s; cases t; exact congrArg String.mk h
  · exact Or.inr (Or.inr h)

lemma pairLe_total (x y : String × String) : pairLe x y ∨ pairLe y x := by
  unfold pairLe pairLeB strLeB
  rcases strLtB_cases x.1 y.1 with h | h | h
  · exact Or.inl (by simp [h])
  · rcases strLtB_cases x.2 y.2 with h' | h' | h'
    · exact Or.inl (by simp [h, h'])
    · exact Or.inl (by simp [h, h'])
    · exact Or.inr (by simp [h.symm, h'])
  · exact Or.inr (by simp [h])

lemma pairLe_trans (x y z : String × String) (h₁ : pairLe x y) (h₂ : pairLe y z) :
    pairLe x z := by
  unfold pairLe pairLeB strLeB at h₁ h₂ ⊢
  simp only [Bool.or_eq_true, Bool.and_eq_true, decide_eq_true_eq] at h₁ h₂ ⊢
  rcases h₁ with h₁ | ⟨e₁, h₁⟩
  · rcases h₂ with h₂ | ⟨e₂, _⟩
    · exact Or.inl (strLtB_trans h₁ h₂)
    · exact Or.inl (e₂ ▸ h₁)
  · rcases h₂ with h₂ | ⟨e₂, h₂⟩
    · exact Or.inl (e₁ ▸ h₂)
    · refine Or.inr ⟨e₁.trans e₂, ?_⟩
      rcases h₁ with h₁ | h₁
      · rcases h₂ with h₂ | h₂
        · exact Or.inl (strLtB_trans h₁ h₂)
        · exact Or.inl (h₂ ▸ h₁)
      · exact h₁ ▸ h₂

lemma pairLe_antisymm {x y : String × String} (h₁ : pairLe x y) (h₂ : pairLe y x) :
    x = y := by
  unfold pairLe pairLeB strLeB at h₁ h₂
  simp only [Bool.or_eq_true, Bool.and_eq_true, decide_eq_true_eq] at h₁ h₂
  rcases h₁ with h₁ | ⟨e₁, h₁⟩
  · rcases h₂ with h₂ | ⟨e₂, _⟩
    · exact absurd h₂ (fun h => strLtB_asymm h₁ h)
    · rw [e₂] at h₁; exact absurd h₁ (by simp [strLtB, lexLtB_irrefl])
  · rcases h₂ with h₂ | ⟨e₂, h₂⟩
    · rw [e₁] at h₂; exact absurd h₂ (by simp [strLtB, lexLtB_irrefl])
    · have e₃ : x.2 = y.2 := by
        rcases h₁ with h₁ | h₁
        · rcases h₂ with h₂ | h₂
          · exact absurd h₂ (fun h => strLtB_asymm h₁ h)
          · exact h₂.symm
        · exact h₁
      exact Prod.ext e₁ e₃

instance : IsTotal ProbeResult probeLe :=
  ⟨fun a b => pairLe_total (a.publisher, a.model_id) (b.publisher, b.model_id)⟩

instance : IsTrans ProbeResult probeLe :=
  ⟨fun _ _ _ h₁ h₂ => pairLe_trans _ _ _ h₁ h₂⟩

instance : IsTotal RegionReport regionLe :=
  ⟨fun a b => pairLe_total (a.publisher, a.model_id) (b.publisher, b.model_id)⟩

instance : IsTrans RegionReport regionLe :=
  ⟨fun _ _ _ h₁ h₂ => pairLe_trans _ _ _ h₁ h₂⟩

/-! ### Structural lemmas about the sweep -/

/-- Two sorted lists that are permutations of each other and whose first
list's elements are pairwise antisymmetric for the comparison are equal. -/
lemma eq_of_perm_of_sorted_on {α : Type} {r : α → α → Prop} :
    ∀ {l₁ l₂ : List α},
      (∀ a b, a ∈ l₁ → b ∈ l₁ → r a b → r b a → a = b) →
      l₁.Perm l₂ → l₁.Sorted r → l₂.Sorted r → l₁ = l₂
  | [], l₂, _, p, _, _ => p.nil_eq
  | a :: t₁, [], _, p, _, _ => absurd p.symm (by simp)
  | a :: t₁, b :: t₂, anti, p, s₁, s₂ => by
    have hs₁ := (List.sorted_cons.mp s₁)
    have hs₂ := (List.sorted_cons.mp s₂)
    have hab : a = b := by
      by_cases h : a = b
      · exact h
      · have ha : a ∈ b :: t₂ := p.mem_iff.mp (List.mem_cons_self a t₁)
        have hb : b ∈ a :: t₁ := p.mem_iff.mpr (List.mem_cons_self b t₂)
        have ha' : a ∈ t₂ := by
          rcases List.mem_cons.mp ha with h' | h'
          · exact absurd h' h
          · exact h'
        have hb' : b ∈ t₁ := by
          rcases List.mem_cons.mp hb with h' | h'
          · exact absurd h'.symm h
          · exact h'
        exact anti a b (List.mem_cons_self a t₁) (List.mem_cons_of_mem a hb')
          (hs₁.1 b hb') (hs₂.1 a ha')
    subst hab
    have p' : t₁.Perm t₂ := p.cons_inv
    have anti' : ∀ x y, x ∈ t₁ → y ∈ t₁ → r x y → r y x → x = y := fun x y hx hy =>
      anti x y (List.mem_cons_of_mem a hx) (List.mem_cons_of_mem a hy)
    exact congrArg (a :: ·) (eq_of_perm_of_sorted_on anti' p' hs₁.2 hs₂.2)

/-- If `f` recovers its input through `key`, the keys of `l.filterMap f`
form a sublist of `l`. -/
lemma map_key_filterMap_sublist {α β : Type} (f : α → Option β) (key : β → α)
    (h : ∀ a b, f a = some b → key b = a) :
    ∀ l : List α, ((l.filterMap f).map key).Sublist l
  | [] => List.Sublist.refl []
  | a :: t => by
    cases hfa : f a with
    | none =>
      rw [List.filterMap_cons_none hfa]
      exact (map_key_filterMap_sublist f key h t).cons a
    | some b =>
      rw [List.filterMap_cons_some hfa, List.map_cons, h a b hfa]
      exact (map_key_filterMap_sublist f key h t).cons₂ a

/-- Dropping elements on which `f` is `none` does not change `filterMap`. -/
lemma filterMap_filter_of_none {α β : Type} (p : α → Bool) (f : α → Option β)
    (h : ∀ a, p a = false → f a = none) :
    ∀ l : List α, (l.filter p).filterMap f = l.filterMap f
  | [] => rfl
  | a :: t => by
    cases hpa : p a with
    | true =>
      rw [List.filter_cons_of_pos hpa, List.filterMap_cons, List.filterMap_cons,
        filterMap_filter_of_none p f h t]
    | false =>
      rw [List.filter_cons_of_neg (by simp [hpa]), List.filterMap_cons, h a hpa,
        filterMap_filter_of_none p f h t]

/-- A probe result carries the probed publisher and model id. -/
lemma check_ids {pub mid : String} {reg : Option String} {net : HttpResult}
    {r : ProbeResult} (h : check_model_availability pub mid reg net = some r) :
    r.publisher = pub ∧ r.model_id = mid := by
  cases net with
  | response status body =>
    simp only [check_model_availability] at h
    split_ifs at h with h₁ h₂ h₃ h₄ <;>
      first
        | (injection h with h; subst h; exact ⟨rfl, rfl⟩)
        | exact absurd h (by simp)
  | timeout => exact absurd h (by simp [check_model_availability])
  | exception => exact absurd h (by simp [check_model_availability])

/-- A probe result's status is one of the three reportable strings. -/
lemma check_status {pub mid : String} {reg : Option String} {net : HttpResult}
    {r : ProbeResult} (h : check_model_availability pub mid reg net = some r) :
    r.status = "available" ∨ r.status = "needs_eula" ∨ r.status = "needs_permission" := by
  cases net with
  | response status body =>
    simp only [check_model_availability] at h
    split_ifs at h with h₁ h₂ h₃ h₄ <;>
      first
        | (injection h with h; subst h; simp)
        | exact absurd h (by simp)
  | timeout => exact absurd h (by simp [check_model_availability])
  | exception => exact absurd h (by simp [check_model_availability])

/-- Timeouts and transport exceptions are absorbed into `none`. -/
lemma check_failure {pub mid : String} {reg : Option String} {net : HttpResult}
    (h : isFailure net = true) :
    check_model_availability pub mid reg net = none := by
  cases net with
  | response status body => simp [isFailure] at h
  | timeout => rfl
  | exception => rfl

/-- The three buckets of `check_model_in_regions` are the input regions
filtered by classified status, in input order. -/
lemma regionBuckets_eq (pub mid : String) (net : String → HttpResult) :
    ∀ rs : List String,
      regionBuckets pub mid net rs =
        (availableIn pub mid net rs, eulaIn pub mid net rs, permIn pub mid net rs)
  | [] => rfl
  | r :: rest => by
    unfold regionBuckets availableIn eulaIn permIn
    rw [show (regionBuckets pub mid net rest) =
        (availableIn pub mid net rest, eulaIn pub mid net rest, permIn pub mid net rest)
      from regionBuckets_eq pub mid net rest]
    unfold availableIn eulaIn permIn probeStatus
    cases hres : check_model_availability pub mid (some r) (net r) with
    | none => simp [List.filter_cons, hres]
    | some res =>
      rcases check_status hres with h | h | h <;>
        simp [List.filter_cons, hres, h]

/-- A region report carries the probed publisher and model id, one of the
three reportable statuses, and the publisher-derived EULA flag. -/
lemma regions_shape {pub mid : String} {rs : List String} {net : String → HttpResult}
    {rr : RegionReport} (h : check_model_in_regions pub mid rs net = some rr) :
    rr.publisher = pub ∧ rr.model_id = mid ∧
      (rr.status = "available" ∨ rr.status = "needs_eula" ∨ rr.status = "needs_permission") ∧
      rr.requires_eula = !(["google"].contains pub) := by
  simp only [check_model_in_regions] at h
  split_ifs at h with h₁ h₂ h₃ <;>
    first
      | (injection h with h; subst h; simp)
      | exact absurd h (by simp)

/-! ### Claims -/

/-- C1: a probe's outcome is classified strictly from the HTTP status and,
for 403, from the case-insensitive keyword scan of the body: 200 is
`available`; 403 with an "agreement"/"eula"/"terms" keyword is `needs_eula`;
403 otherwise is `needs_permission`; 404, any other status, a timeout, or a
transport exception is absent (`none`).  The probe issues a single attempt,
so there is no retry to model. -/
theorem C1_probe_classification (pub mid : String) (reg : Option String)
    (body : String) (s : Nat) :
    (check_model_availability pub mid reg (.response 200 body) =
      some ⟨pub, mid, "available", endpointOf reg, !(["google"].contains pub)⟩)
  ∧ (eulaKeyword body = true →
      check_model_availability pub mid reg (.response 403 body) =
        some ⟨pub, mid, "needs_eula", endpointOf reg, true⟩)
  ∧ (eulaKeyword body = false →
      check_model_availability pub mid reg (.response 403 body) =
        some ⟨pub, mid, "needs_permission", endpointOf reg, !(["google"].contains pub)⟩)
  ∧ (check_model_availability pub mid reg (.response 404 body) = none)
  ∧ (s ≠ 200 → s ≠ 403 → s ≠ 404 →
      check_model_availability pub mid reg (.response s body) = none)
  ∧ (check_model_availability pub mid reg .timeout = none)
  ∧ (check_model_availability pub mid reg .exception = none) := by
  refine ⟨rfl, fun h => ?_, fun h => ?_, rfl, fun h₁ h₂ h₃ => ?_, rfl, rfl⟩
  · simp [check_model_availability, h]
  · simp [check_model_availability, h]
  · simp [check_model_availability, h₁, h₂, h₃]

/-- Witness for C1 at the spec's concrete probes: a 403 body demanding the
EULA classifies as `needs_eula`, a 403 permission body as
`needs_permission`, and an unexpected 500 as absent. -/
theorem C1_probe_classification_witness :
    check_model_availability "anthropic" "claude-3-5-sonnet" none
        (.response 403 "You must accept the EULA") =
      some ⟨"anthropic", "claude-3-5-sonnet", "needs_eula", "global", true⟩
  ∧ check_model_availability "anthropic" "claude-3-5-sonnet" none
        (.response 403 "insufficient permissions") =
      some ⟨"anthropic", "claude-3-5-sonnet", "needs_permission", "global", true⟩
  ∧ check_model_availability "google" "gemini-2.0-flash" (some "us-central1")
        (.response 500 "internal error") = none := by
  refine ⟨?_, ?_, ?_⟩
  · exact (C1_probe_classification "anthropic" "claude-3-5-sonnet" none
      "You must accept the EULA" 0).2.1 (by decide)
  · simpa using (C1_probe_classification "anthropic" "claude-3-5-sonnet" none
      "insufficient permissions" 0).2.2.1 (by decide)
  · exact (C1_probe_classification "google" "gemini-2.0-flash" (some "us-central1")
      "internal error" 500).2.2.2.2.1 (by decide) (by decide) (by decide)

/-- C3 counterexample: the claim says `requiresEula` is the static function
`publisher not in ["google"]` of the publisher alone, independent of the
probe outcome.  But a 403 probe of a `google` model whose body mentions
"terms" yields `requires_eula = true` (line 171 hard-codes `True`), while
the static function yields `false` for `google`. -/
theorem C3_eula_flag_counterexample :
    (check_model_availability "google" "gemini-2.0-flash" none
        (.response 403 "please accept the terms of service")).map
      ProbeResult.requires_eula = some true
  ∧ (!(["google"].contains "google")) = false := by
  decide

/-- C3 as amended: `requiresEula` equals the static publisher function
`publisher not in ["google"]` in every ModelReport and in every probe result
whose status is not `needs_eula`; in a `needs_eula` probe result it is
hard-coded `true` regardless of publisher. -/
theorem C3_eula_flag_amended :
    (∀ pub mid reg net r, check_model_availability pub mid reg net = some r →
        r.status ≠ "needs_eula" → r.requires_eula = !(["google"].contains pub))
  ∧ (∀ pub mid reg net r, check_model_availability pub mid reg net = some r →
        r.status = "needs_eula" → r.requires_eula = true)
  ∧ (∀ pub mid regions net rr, check_model_in_regions pub mid regions net = some rr →
        rr.requires_eula = !(["google"].contains pub)) := by
  refine ⟨fun pub mid reg net r h hs => ?_, fun pub mid reg net r h hs => ?_,
    fun pub mid regions net rr h => (regions_shape h).2.2.2⟩
  · cases net with
    | response status body =>
      simp only [check_model_availability] at h
      split_ifs at h with h₁ h₂ h₃ h₄ <;>
        first
          | (injection h with h; subst h; first | rfl | exact absurd rfl hs)
          | exact absurd h (by simp)
    | timeout => exact absurd h (by simp [check_model_availability])
    | exception => exact absurd h (by simp [check_model_availability])
  · cases net with
    | response status body =>
      simp only [check_model_availability] at h
      split_ifs at h with h₁ h₂ h₃ h₄ <;>
        first
          | (injection h with h; subst h; first | rfl | simp at hs)
          | exact absurd h (by simp)
    | timeout => exact absurd h (by simp [check_model_availability])
    | exception => exact absurd h (by simp [check_model_availability])

/-- Witness for the amended C3 at concrete probes and one concrete regional
report. -/
theorem C3_eula_flag_amended_witness :
    (⟨"google", "gemini-2.0-flash", "available", "global", false⟩ : ProbeResult).requires_eula =
      !(["google"].contains "google")
  ∧ (⟨"anthropic", "claude-opus-4", "needs_eula", "global", true⟩ : ProbeResult).requires_eula = true
  ∧ (⟨"google", "gemini-2.0-flash", "available", ["us-central1"], false⟩ : RegionReport).requires_eula =
      !(["google"].contains "google") := by
  refine ⟨?_, ?_, ?_⟩
  · exact C3_eula_flag_amended.1 "google" "gemini-2.0-flash" none (.response 200 "ok")
      ⟨"google", "gemini-2.0-flash", "available", "global", false⟩ (by decide) (by decide)
  · exact C3_eula_flag_amended.2.1 "anthropic" "claude-opus-4" none
      (.response 403 "accept the eula") ⟨"anthropic", "claude-opus-4", "needs_eula", "global", true⟩
      (by decide) (by decide)
  · exact C3_eula_flag_amended.2.2 "google" "gemini-2.0-flash" ["us-central1"]
      (fun _ => .response 200 "ok")
      ⟨"google", "gemini-2.0-flash", "available", ["us-central1"], false⟩ (by decide)

/-- C9: the request's `thinkingConfig` carries `thinkingBudget` exactly when
the budget argument is positive (and then no `thinkingLevel`), carries
`thinkingLevel` otherwise (budget zero or negative), and never carries
both. -/
theorem C9_thinking_config (no_thoughts : Bool) (lvl : String) (b : Int) :
    ((build_thinking_config no_thoughts lvl b).thinkingBudget =
      if b > 0 then some b else none)
  ∧ ((build_thinking_config no_thoughts lvl b).thinkingLevel =
      if b > 0 then none else some lvl)
  ∧ ((build_thinking_config no_thoughts lvl b).thinkingBudget.isSome &&
      (build_thinking_config no_thoughts lvl b).thinkingLevel.isSome) = false := by
  unfold build_thinking_config
  split_ifs with h <;> simp

/-- C10: `get_api_key` exits with code 1 exactly when the key obtained from
the argument (falling back to the environment variable on an absent or empty
argument, per Python `or`) is absent, empty, or the literal `"1234"`, and
otherwise returns that key unchanged. -/
theorem C10_api_key_validation (arg_key env_key : Option String) :
    (get_api_key arg_key env_key = .error 1 ↔
      effective_api_key arg_key env_key = none ∨
        effective_api_key arg_key env_key = some "" ∨
        effective_api_key arg_key env_key = some "1234")
  ∧ (∀ k : String, get_api_key arg_key env_key = .ok k ↔
      effective_api_key arg_key env_key = some k ∧ k ≠ "" ∧ k ≠ "1234") := by
  cases heff : effective_api_key arg_key env_key with
  | none => simp [get_api_key, heff]
  | some k =>
    by_cases hk : k = "" ∨ k = "1234"
    · constructor
      · simp only [get_api_key, heff, if_pos hk]
        simp [hk]
      · intro k'
        simp only [get_api_key, heff, if_pos hk]
        constructor
        · intro h; exact absurd h (by simp)
        · rintro ⟨hkk, h₁, h₂⟩
          injection hkk with hkk
          subst hkk
          rcases hk with hk | hk
          · exact absurd hk h₁
          · exact absurd hk h₂
    · constructor
      · simp only [get_api_key, heff, if_neg hk]
        push_neg at hk
        simp [hk.1, hk.2]
      · intro k'
        simp only [get_api_key, heff, if_neg hk]
        push_neg at hk
        constructor
        · intro h; injection h with h; subst h; exact ⟨rfl, hk.1, hk.2⟩
        · rintro ⟨hkk, _, _⟩
          injection hkk with hkk
          subst hkk
          rfl

/-- Witness for C10: a valid argument key is returned unchanged; the
placeholder `"1234"` from the environment terminates with exit code 1. -/
theorem C10_api_key_validation_witness :
    get_api_key (some "secret-key") none = .ok "secret-key"
  ∧ get_api_key none (some "1234") = .error 1 := by
  refine ⟨?_, ?_⟩
  · exact ((C10_api_key_validation (some "secret-key") none).2 "secret-key").mpr
      ⟨by decide, by decide, by decide⟩
  · exact (C10_api_key_validation none (some "1234")).1.mpr (Or.inr (Or.inr (by decide)))

/-- C2: the Region Aggregator reduces the per-region outcomes to the
highest-precedence non-empty bucket under Available > NeedsEula >
NeedsPermission; the report lists exactly the regions attaining the winning
status, in input-sequence order (the filters preserve input order); it is
absent when every probe is absent. -/
theorem C2_region_precedence (pub mid : String) (regions : List String)
    (net : String → HttpResult) :
    (availableIn pub mid net regions ≠ [] →
      check_model_in_regions pub mid regions net =
        some ⟨pub, mid, "available", availableIn pub mid net regions,
          !(["google"].contains pub)⟩)
  ∧ (availableIn pub mid net regions = [] → eulaIn pub mid net regions ≠ [] →
      check_model_in_regions pub mid regions net =
        some ⟨pub, mid, "needs_eula", eulaIn pub mid net regions,
          !(["google"].contains pub)⟩)
  ∧ (availableIn pub mid net regions = [] → eulaIn pub mid net regions = [] →
      permIn pub mid net regions ≠ [] →
      check_model_in_regions pub mid regions net =
        some ⟨pub, mid, "needs_permission", permIn pub mid net regions,
          !(["google"].contains pub)⟩)
  ∧ (availableIn pub mid net regions = [] → eulaIn pub mid net regions = [] →
      permIn pub mid net regions = [] →
      check_model_in_regions pub mid regions net = none) := by
  have hb := regionBuckets_eq pub mid net regions
  refine ⟨fun h₁ => ?_, fun h₁ h₂ => ?_, fun h₁ h₂ h₃ => ?_, fun h₁ h₂ h₃ => ?_⟩
  · simp [check_model_in_regions, hb, h₁]
  · simp [check_model_in_regions, hb, h₁, h₂]
  · simp [check_model_in_regions, hb, h₁, h₂, h₃]
  · simp [check_model_in_regions, hb, h₁, h₂, h₃]

/-- Witness for C2: one concrete aggregation per precedence outcome,
including the spec's region-precedence law `{A: Available, B: NeedsEula} ↦
(Available, [A])`. -/
theorem C2_region_precedence_witness :
    check_model_in_regions "anthropic" "claude-opus-4" ["us-east5", "us-central1"]
        (fun r => if r = "us-east5" then .response 200 "ok"
          else .response 403 "accept the eula") =
      some ⟨"anthropic", "claude-opus-4", "available", ["us-east5"], true⟩
  ∧ check_model_in_regions "anthropic" "claude-opus-4" ["us-east5", "us-central1"]
        (fun r => if r = "us-east5" then .response 404 "missing"
          else .response 403 "accept the eula") =
      some ⟨"anthropic", "claude-opus-4", "needs_eula", ["us-central1"], true⟩
  ∧ check_model_in_regions "anthropic" "claude-opus-4" ["us-east5", "us-central1"]
        (fun r => if r = "us-east5" then .timeout
          else .response 403 "no permission") =
      some ⟨"anthropic", "claude-opus-4", "needs_permission", ["us-central1"], true⟩
  ∧ check_model_in_regions "anthropic" "claude-opus-4" ["us-east5", "us-central1"]
        (fun _ => .response 404 "missing") = none := by
  refine ⟨?_, ?_, ?_, ?_⟩
  · simpa using (C2_region_precedence "anthropic" "claude-opus-4"
      ["us-east5", "us-central1"]
      (fun r => if r = "us-east5" then .response 200 "ok"
        else .response 403 "accept the eula")).1 (by decide)
  · simpa using (C2_region_precedence "anthropic" "claude-opus-4"
      ["us-east5", "us-central1"]
      (fun r => if r = "us-east5" then .response 404 "missing"
        else .response 403 "accept the eula")).2.1 (by decide) (by decide)
  · simpa using (C2_region_precedence "anthropic" "claude-opus-4"
      ["us-east5", "us-central1"]
      (fun r => if r = "us-east5" then .timeout
        else .response 403 "no permission")).2.2.1 (by decide) (by decide) (by decide)
  · exact (C2_region_precedence "anthropic" "claude-opus-4"
      ["us-east5", "us-central1"]
      (fun _ => .response 404 "missing")).2.2.2 (by decide) (by decide) (by decide)

/-- Regions whose probe fails contribute nothing to the buckets. -/
lemma regionBuckets_filter_failures (pub mid : String) (net : String → HttpResult) :
    ∀ rs : List String,
      regionBuckets pub mid net (rs.filter fun r => !isFailure (net r)) =
        regionBuckets pub mid net rs
  | [] => rfl
  | r :: rest => by
    cases hf : isFailure (net r) with
    | true =>
      rw [List.filter_cons_of_neg (by simp [hf])]
      rw [show regionBuckets pub mid net (r :: rest) = regionBuckets pub mid net rest from
        by simp [regionBuckets, check_failure hf]]
      exact regionBuckets_filter_failures pub mid net rest
    | false =>
      rw [List.filter_cons_of_pos (by simp [hf])]
      simp only [regionBuckets, regionBuckets_filter_failures pub mid net rest]

/-- C4: a failing unit of work is exactly as if it had returned absent: the
probe maps timeouts and transport exceptions to `none`; the global sweep is
unchanged if candidates whose probe fails are removed up front; and a
regional aggregation is unchanged if its failing regions are removed up
front.  The sweep and the aggregator are total functions, so a run always
terminates with a (possibly empty) report, and no unit's failure can abort
it. -/
theorem C4_failure_isolation :
    (∀ pub mid reg, check_model_availability pub mid reg .timeout = none ∧
        check_model_availability pub mid reg .exception = none)
  ∧ (∀ (cands : List (String × String)) (net : String × String → HttpResult),
      discover_global cands net =
        discover_global (cands.filter fun c => !isFailure (net c)) net)
  ∧ (∀ pub mid (regions : List String) (net : String → HttpResult),
      check_model_in_regions pub mid (regions.filter fun r => !isFailure (net r)) net =
        check_model_in_regions pub mid regions net) := by
  refine ⟨fun pub mid reg => ⟨rfl, rfl⟩, fun cands net => ?_, fun pub mid regions net => ?_⟩
  · unfold discover_global
    refine congrArg (List.insertionSort probeLe) ?_
    refine (filterMap_filter_of_none _ _ (fun c hc => ?_) cands).symm
    exact check_failure (by simpa using hc)
  · unfold check_model_in_regions
    rw [regionBuckets_filter_failures]

/-- The global unit of work recovers its candidate pair. -/
lemma global_unit_key (net : String × String → HttpResult) (c : String × String)
    (r : ProbeResult) (h : check_model_availability c.1 c.2 none (net c) = some r) :
    (r.publisher, r.model_id) = c := by
  obtain ⟨h₁, h₂⟩ := check_ids h
  rw [h₁, h₂]

/-- The regional unit of work recovers its candidate pair. -/
lemma regional_unit_key (regions : List String)
    (net : String × String → String → HttpResult) (c : String × String)
    (rr : RegionReport) (h : check_model_in_regions c.1 c.2 regions (net c) = some rr) :
    (rr.publisher, rr.model_id) = c := by
  obtain ⟨h₁, h₂, -, -⟩ := regions_shape h
  rw [h₁, h₂]

/-- C5: for a duplicate-free candidate set, the final global report drops
all absent results (every entry is the non-absent probe result of its own
pair), is sorted ascending by `(publisher, model_id)` under case-sensitive
lexical order, and holds no two entries with the same pair. -/
theorem C5_report_sorted_nodup (cands : List (String × String))
    (net : String × String → HttpResult) (h : cands.Nodup) :
    (discover_global cands net).Sorted probeLe
  ∧ ((discover_global cands net).map fun r => (r.publisher, r.model_id)).Nodup
  ∧ ∀ r ∈ discover_global cands net,
      check_model_availability r.publisher r.model_id none
        (net (r.publisher, r.model_id)) = some r := by
  refine ⟨List.sorted_insertionSort probeLe _, ?_, ?_⟩
  · have hsub := map_key_filterMap_sublist
      (fun c : String × String => check_model_availability c.1 c.2 none (net c))
      (fun r => (r.publisher, r.model_id)) (global_unit_key net) cands
    have hnd := hsub.nodup h
    have hperm := (List.perm_insertionSort probeLe
      (cands.filterMap fun c => check_model_availability c.1 c.2 none (net c))).map
      (fun r => (r.publisher, r.model_id))
    exact hperm.symm.nodup hnd
  · intro r hr
    have hr' := (List.perm_insertionSort probeLe _).mem_iff.mp hr
    obtain ⟨c, _, hfc⟩ := List.mem_filterMap.mp hr'
    rw [show (r.publisher, r.model_id) = c from global_unit_key net c r hfc]
    obtain ⟨h₁, h₂⟩ := check_ids hfc
    rw [h₁, h₂]
    exact hfc

/-- Witness for C5 at a concrete two-candidate sweep. -/
theorem C5_report_sorted_nodup_witness :
    (discover_global [("google", "gemini-2.5-pro"), ("anthropic", "claude-3-5-sonnet")]
      (fun c => if c.1 = "anthropic" then .response 403 "accept the eula first"
        else .response 200 "ok")).Sorted probeLe
  ∧ ((discover_global [("google", "gemini-2.5-pro"), ("anthropic", "claude-3-5-sonnet")]
      (fun c => if c.1 = "anthropic" then .response 403 "accept the eula first"
        else .response 200 "ok")).map fun r => (r.publisher, r.model_id)).Nodup
  ∧ ∀ r ∈ discover_global [("google", "gemini-2.5-pro"), ("anthropic", "claude-3-5-sonnet")]
      (fun c => if c.1 = "anthropic" then .response 403 "accept the eula first"
        else .response 200 "ok"),
      check_model_availability r.publisher r.model_id none
        ((fun c : String × String => if c.1 = "anthropic" then
            HttpResult.response 403 "accept the eula first"
          else HttpResult.response 200 "ok") (r.publisher, r.model_id)) = some r :=
  C5_report_sorted_nodup
    [("google", "gemini-2.5-pro"), ("anthropic", "claude-3-5-sonnet")]
    (fun c => if c.1 = "anthropic" then .response 403 "accept the eula first"
      else .response 200 "ok")
    (by decide)

/-- C6: every final report entry's status, global or regional, is one of
`available`, `needs_eula`, `needs_permission`; no other value (and no
not-found or inconclusive marker, which the code represents as `None`, not
as a status) ever appears. -/
theorem C6_status_taxonomy :
    (∀ (cands : List (String × String)) (net : String × String → HttpResult) r,
      r ∈ discover_global cands net →
        r.status = "available" ∨ r.status = "needs_eula" ∨ r.status = "needs_permission")
  ∧ (∀ (cands : List (String × String)) (regions : List String)
      (net : String × String → String → HttpResult) rr,
      rr ∈ discover_regional cands regions net →
        rr.status = "available" ∨ rr.status = "needs_eula" ∨
          rr.status = "needs_permission") := by
  constructor
  · intro cands net r hr
    have hr' := (List.perm_insertionSort probeLe _).mem_iff.mp hr
    obtain ⟨c, _, hfc⟩ := List.mem_filterMap.mp hr'
    exact check_status hfc
  · intro cands regions net rr hrr
    have hrr' := (List.perm_insertionSort regionLe _).mem_iff.mp hrr
    obtain ⟨c, _, hfc⟩ := List.mem_filterMap.mp hrr'
    exact (regions_shape hfc).2.2.1

/-- Witness for C6 on a concrete global sweep and a concrete regional
sweep. -/
theorem C6_status_taxonomy_witness :
    ((⟨"google", "gemini-2.5-pro", "available", "global", false⟩ : ProbeResult).status =
        "available" ∨
      (⟨"google", "gemini-2.5-pro", "available", "global", false⟩ : ProbeResult).status =
        "needs_eula" ∨
      (⟨"google", "gemini-2.5-pro", "available", "global", false⟩ : ProbeResult).status =
        "needs_permission")
  ∧ ((⟨"google", "gemini-2.5-pro", "available", ["us-east1"], false⟩ : RegionReport).status =
        "available" ∨
      (⟨"google", "gemini-2.5-pro", "available", ["us-east1"], false⟩ : RegionReport).status =
        "needs_eula" ∨
      (⟨"google", "gemini-2.5-pro", "available", ["us-east1"], false⟩ : RegionReport).status =
        "needs_permission") := by
  constructor
  · exact C6_status_taxonomy.1 [("google", "gemini-2.5-pro")] (fun _ => .response 200 "ok")
      ⟨"google", "gemini-2.5-pro", "available", "global", false⟩ (by decide)
  · exact C6_status_taxonomy.2 [("google", "gemini-2.5-pro")] ["us-east1"]
      (fun _ _ => .response 200 "ok")
      ⟨"google", "gemini-2.5-pro", "available", ["us-east1"], false⟩ (by decide)

/-- C7: every failure of the external catalog command yields an empty fetch;
an empty fetch makes the dynamic path fall back to the static table; the
static table is what an explicit static request returns regardless of the
command's outcome; and the fallback candidate set is non-empty and contains
every statically-listed pair. -/
theorem C7_catalog_fallback :
    (fetch_model_garden_models .failed = [] ∧ fetch_model_garden_models .timedOut = [] ∧
      fetch_model_garden_models .notFound = [])
  ∧ (∀ g, fetch_model_garden_models g = [] → get_model_patterns g true = static_patterns)
  ∧ (∀ g, get_model_patterns g false = static_patterns)
  ∧ static_patterns ≠ []
  ∧ (∀ g, fetch_model_garden_models g = [] →
      ∀ pm ∈ static_patterns, pm ∈ get_model_patterns g true) := by
  refine ⟨⟨rfl, rfl, rfl⟩, fun g hg => ?_, fun g => rfl, by decide, fun g hg pm hpm => ?_⟩
  · simp [get_model_patterns, hg]
  · simpa [get_model_patterns, hg] using hpm

/-- Witness for C7 with the external command timing out. -/
theorem C7_catalog_fallback_witness :
    get_model_patterns .timedOut true = static_patterns
  ∧ ("google", "gemini-2.5-pro") ∈ get_model_patterns .timedOut true := by
  refine ⟨C7_catalog_fallback.2.1 .timedOut rfl, ?_⟩
  exact C7_catalog_fallback.2.2.2.2 .timedOut rfl ("google", "gemini-2.5-pro") (by decide)

/-- C8: with every probe's outcome fixed per target, the sorted report is
independent of the order in which concurrent units complete — any two
completion orders (permutations of the candidate set) yield identical
reports, for both the global and the regional sweep. -/
theorem C8_completion_order_irrelevant :
    (∀ (cands order₁ order₂ : List (String × String))
        (net : String × String → HttpResult),
      order₁.Perm cands → order₂.Perm cands →
      discover_global order₁ net = discover_global order₂ net)
  ∧ (∀ (cands order₁ order₂ : List (String × String)) (regions : List String)
        (net : String × String → String → HttpResult),
      order₁.Perm cands → order₂.Perm cands →
      discover_regional order₁ regions net = discover_regional order₂ regions net) := by
  constructor
  · intro cands o₁ o₂ net h₁ h₂
    unfold discover_global
    have hperm : (o₁.filterMap fun c => check_model_availability c.1 c.2 none (net c)).Perm
        (o₂.filterMap fun c => check_model_availability c.1 c.2 none (net c)) :=
      (h₁.trans h₂.symm).filterMap _
    refine eq_of_perm_of_sorted_on (fun a b ha hb hab hba => ?_)
      (((List.perm_insertionSort probeLe _).trans hperm).trans
        (List.perm_insertionSort probeLe _).symm)
      (List.sorted_insertionSort probeLe _) (List.sorted_insertionSort probeLe _)
    have ha' := (List.perm_insertionSort probeLe _).mem_iff.mp ha
    have hb' := (List.perm_insertionSort probeLe _).mem_iff.mp hb
    obtain ⟨c₁, _, hfc₁⟩ := List.mem_filterMap.mp ha'
    obtain ⟨c₂, _, hfc₂⟩ := List.mem_filterMap.mp hb'
    have hk : (a.publisher, a.model_id) = (b.publisher, b.model_id) :=
      pairLe_antisymm hab hba
    have hc : c₁ = c₂ := by
      rw [← global_unit_key net c₁ a hfc₁, ← global_unit_key net c₂ b hfc₂, hk]
    rw [hc] at hfc₁
    exact Option.some_injective _ (hfc₁.symm.trans hfc₂)
  · intro cands o₁ o₂ regions net h₁ h₂
    unfold discover_regional
    have hperm : (o₁.filterMap fun c => check_model_in_regions c.1 c.2 regions (net c)).Perm
        (o₂.filterMap fun c => check_model_in_regions c.1 c.2 regions (net c)) :=
      (h₁.trans h₂.symm).filterMap _
    refine eq_of_perm_of_sorted_on (fun a b ha hb hab hba => ?_)
      (((List.perm_insertionSort regionLe _).trans hperm).trans
        (List.perm_insertionSort regionLe _).symm)
      (List.sorted_insertionSort regionLe _) (List.sorted_insertionSort regionLe _)
    have ha' := (List.perm_insertionSort regionLe _).mem_iff.mp ha
    have hb' := (List.perm_insertionSort regionLe _).mem_iff.mp hb
    obtain ⟨c₁, _, hfc₁⟩ := List.mem_filterMap.mp ha'
    obtain ⟨c₂, _, hfc₂⟩ := List.mem_filterMap.mp hb'
    have hk : (a.publisher, a.model_id) = (b.publisher, b.model_id) :=
      pairLe_antisymm hab hba
    have hc : c₁ = c₂ := by
      rw [← regional_unit_key regions net c₁ a hfc₁,
        ← regional_unit_key regions net c₂ b hfc₂, hk]
    rw [hc] at hfc₁
    exact Option.some_injective _ (hfc₁.symm.trans hfc₂)

/-- Witness for C8: two completion orders of a concrete two-candidate sweep
coincide. -/
theorem C8_completion_order_irrelevant_witness :
    discover_global [("google", "a"), ("anthropic", "b")] (fun _ => .response 200 "ok") =
      discover_global [("anthropic", "b"), ("google", "a")] (fun _ => .response 200 "ok")
  ∧ discover_regional [("google", "a"), ("anthropic", "b")] ["us-east1"]
        (fun _ _ => .response 200 "ok") =
      discover_regional [("anthropic", "b"), ("google", "a")] ["us-east1"]
        (fun _ _ => .response 200 "ok") := by
  constructor
  · exact C8_completion_order_irrelevant.1 [("google", "a"), ("anthropic", "b")]
      [("google", "a"), ("anthropic", "b")] [("anthropic", "b"), ("google", "a")]
      (fun _ => .response 200 "ok") (by decide) (by decide)
  · exact C8_completion_order_irrelevant.2 [("google", "a"), ("anthropic", "b")]
      [("google", "a"), ("anthropic", "b")] [("anthropic", "b"), ("google", "a")]
      ["us-east1"] (fun _ _ => .response 200 "ok") (by decide) (by decide)

end Vertex
